import Mathlib

/-!
Verification of the dependency-graph task scheduler and dispatch layer of
this repository: a shallow embedding of `queue.ts` (DependencyTaskQueue),
`agent.ts` (Agent.processTask / executePlan / flushQueueToTaskQueue /
resolveParams), the Router (`registerAgent`, `processNextTask`,
`enqueueTask`, `unregisterAgent`), the Supervisor connection handlers, the
AgentProxy, and the express task-submission boundary (`app.post` for
`/tasks`).

Conventions of the embedding:
- JavaScript runtime values are modelled by `JsValue` (undefined, booleans,
  integers, strings, objects as key/value lists).  `null` and floats are not
  needed by any claim and are omitted.
- JavaScript `Map` objects are modelled as association lists with the
  iteration order of `Map` (insertion order; `set` on an existing key keeps
  its position, on a new key appends), `Set<string>` as a `List String`
  queried only through membership.
- The `while (!planQueue.isEmpty())` loop of `flushQueueToTaskQueue` is not
  structurally terminating (and indeed does not terminate on some inputs),
  so it is modelled with explicit fuel: a `none` result for every fuel bound
  means the loop runs forever.
- Timestamps (`start`/`end` of a TaskResult) carry no scheduling
  information and are dropped from the embedded `TaskResult`.
- A promise `resolve()` call is modelled by a `resolved` flag; socket.io
  sockets by a numeric identity; messages emitted on a socket by an
  explicit log in the state.
-/

namespace TaskRouter

/-- A JavaScript runtime value, as far as the scheduler inspects one. -/
inductive JsValue where
  | undefined : JsValue
  | boolean : Bool → JsValue
  | num : Int → JsValue
  | str : String → JsValue
  | obj : List (String × JsValue) → JsValue

/-- JavaScript truthiness of a value (`!v` is `!truthy v`). -/
def truthy : JsValue → Bool
  | .undefined => false
  | .boolean b => b
  | .num n => n != 0
  | .str s => !s.isEmpty
  | .obj _ => true

/-- Whether `typeof v === 'object'` holds. -/
def isObjectJs : JsValue → Bool
  | .obj _ => true
  | _ => false

/-- The JavaScript `in` operator on an object value: key presence. -/
def hasKey (k : String) : JsValue → Bool
  | .obj fields => fields.any (fun p => p.fst == k)
  | _ => false

/-- The `params` field of a Task or SubTask: either a plain value or a
resolver function of the dependency results (`SubTask.params` in
`task.ts`). -/
inductive Params where
  | value : JsValue → Params
  | resolver : (List JsValue → JsValue) → Params

/-- A Task / SubTask (`task.ts`): `Task` is the case with `dependencies`
absent; `DependencyTaskQueue.enqueue` casts every stored task to `SubTask`,
so one type serves both. -/
structure SubTask where
  id : String
  executor : String
  params : Params
  dependencies : Option (List String) := none
  span : Option String := none

/-- The `result` field of a TaskResult: `{data}` on success or `{error}` on
failure (`Result` in `task.ts`). -/
inductive Outcome where
  | data : JsValue → Outcome
  | error : JsValue → Outcome

/-- Reading `.data` from the `result` field: on a failure result the `data`
property is absent, so JavaScript yields `undefined`. -/
def Outcome.dataField : Outcome → JsValue
  | .data v => v
  | .error _ => .undefined

/-- A TaskResult (`task.ts`) without its timestamps, which no claim
inspects. -/
structure TaskResult where
  id : String
  outcome : Outcome

/-- Lookup in a JavaScript `Map` modelled as an association list. -/
def mapFind (m : List (String × α)) (k : String) : Option α :=
  (m.find? (fun p => p.fst == k)).map (fun p => p.snd)

/-- `Map.set`: replace in place when the key exists, append otherwise
(JavaScript `Map` iteration order). -/
def mapSet (m : List (String × α)) (k : String) (v : α) : List (String × α) :=
  if m.any (fun p => p.fst == k) then
    m.map (fun p => if p.fst == k then (k, v) else p)
  else m ++ [(k, v)]

/-- `Map.delete` by key. -/
def mapDelete (m : List (String × α)) (k : String) : List (String × α) :=
  m.filter (fun p => p.fst != k)

/-- `Set.add` for a set of strings. -/
def strInsert (l : List String) (s : String) : List String :=
  if l.contains s then l else s :: l

/-- `Set.delete` for a set of strings. -/
def strRemove (l : List String) (s : String) : List String :=
  l.filter (fun x => x != s)

/-- The state of a `DependencyTaskQueue` (`queue.ts`): the pending task
list, the completed-id set and the in-flight (`processing`) id set. -/
structure DependencyTaskQueue where
  tasks : List SubTask := []
  completed : List String := []
  processing : List String := []

/-- The readiness test of `dequeue`/`peek` (`queue.ts` lines 60-63):
`!task.dependencies || task.dependencies.every(dep => completed.has(dep))`. -/
def depsSatisfied (completed : List String) (t : SubTask) : Bool :=
  match t.dependencies with
  | none => true
  | some deps => deps.all (fun d => completed.contains d)

/-- `findIndex` followed by `splice(i, 1)`: remove and return the first
element satisfying `p`, keeping the rest in order. -/
def extractFirst (p : α → Bool) : List α → Option (α × List α)
  | [] => none
  | x :: xs =>
    if p x then some (x, xs)
    else
      match extractFirst p xs with
      | none => none
      | some (y, ys) => some (y, x :: ys)

/-- `DependencyTaskQueue.enqueue`: append, no validation. -/
def DependencyTaskQueue.enqueue (q : DependencyTaskQueue) (t : SubTask) :
    DependencyTaskQueue :=
  { q with tasks := q.tasks ++ [t] }

/-- `DependencyTaskQueue.dequeue`: remove and return the first task whose
dependencies are all completed, marking its id in-flight; `none` when no
task qualifies. -/
def DependencyTaskQueue.dequeue (q : DependencyTaskQueue) :
    Option SubTask × DependencyTaskQueue :=
  match extractFirst (depsSatisfied q.completed) q.tasks with
  | none => (none, q)
  | some (t, rest) =>
    (some t, { q with tasks := rest, processing := strInsert q.processing t.id })

/-- `DependencyTaskQueue.peek`: same selection, non-destructive. -/
def DependencyTaskQueue.peek (q : DependencyTaskQueue) : Option SubTask :=
  q.tasks.find? (depsSatisfied q.completed)

/-- `DependencyTaskQueue.size`: the length of the pending task list. -/
def DependencyTaskQueue.size (q : DependencyTaskQueue) : Nat :=
  q.tasks.length

/-- `DependencyTaskQueue.isEmpty`: whether the pending task list is empty. -/
def DependencyTaskQueue.isEmpty (q : DependencyTaskQueue) : Bool :=
  q.tasks.isEmpty

/-- `DependencyTaskQueue.markCompleted`: add to the completed set, remove
from the in-flight set. -/
def DependencyTaskQueue.markCompleted (q : DependencyTaskQueue) (taskId : String) :
    DependencyTaskQueue :=
  { q with completed := strInsert q.completed taskId,
           processing := strRemove q.processing taskId }

/-- `DependencyTaskQueue.isProcessing`. -/
def DependencyTaskQueue.isProcessing (q : DependencyTaskQueue) (taskId : String) :
    Bool :=
  q.processing.contains taskId

/-- The data passed to a params-resolver for one dependency id
(`agent.ts` resolveParams): `this.taskResults.get(depId)?.result.data`,
`undefined` when the id has no recorded result or its result is a
failure. -/
def depResultValue (results : List (String × TaskResult)) (depId : String) :
    JsValue :=
  match mapFind results depId with
  | none => .undefined
  | some r => r.outcome.dataField

/-- `Agent.resolveParams` (`agent.ts` lines 129-140): a plain value is
returned unchanged; a resolver is applied to the recorded results of the
listed dependency ids (`(subtask.dependencies || [])`), in listed order. -/
def resolveParams (results : List (String × TaskResult)) (t : SubTask) :
    JsValue :=
  match t.params with
  | .value v => v
  | .resolver f => f ((t.dependencies.getD []).map (depResultValue results))

/-- The `resolvedSubtask` built by `executePlan.processItem`: the item with
its params replaced by the resolved value (a plain value stays itself). -/
def resolveSubTask (results : List (String × TaskResult)) (t : SubTask) :
    SubTask :=
  { t with params := .value (resolveParams results t) }

/-- The mutable state of one `Agent.executePlan` call: the scoped
`planQueue`, the agent's main task queue contents (`this.taskQueue`, a
plain list here since `flushQueueToTaskQueue` only appends to it), the
agent's shared `this.taskResults` map, the `activeStreams` counter, the
`streamEnded` flag and whether `resolve()` has run. -/
structure PlanRunState where
  planQueue : DependencyTaskQueue := {}
  mainTasks : List SubTask := []
  resultMap : List (String × TaskResult) := []
  activeStreams : Int := 0
  streamEnded : Bool := false
  resolved : Bool := false

/-- `checkCompletion` (`agent.ts` lines 81-85): resolve exactly when the
stream-exhaustion flag is set, no nested subscription is open and the
scoped queue is empty. -/
def checkCompletion (s : PlanRunState) : PlanRunState :=
  if s.streamEnded && s.activeStreams == 0 && s.planQueue.isEmpty then
    { s with resolved := true }
  else s

/-- `Agent.flushQueueToTaskQueue` (`agent.ts` lines 120-127):
`while (!planQueue.isEmpty()) { const task = planQueue.dequeue(); if (task)
this.taskQueue.enqueue(task) }`, with explicit fuel for the unbounded
loop.  `none` for every fuel bound means the loop never terminates. -/
def flushFuel : Nat → DependencyTaskQueue → List SubTask →
    Option (DependencyTaskQueue × List SubTask)
  | 0, q, mainTasks => if q.isEmpty then some (q, mainTasks) else none
  | fuel + 1, q, mainTasks =>
    if q.isEmpty then some (q, mainTasks)
    else
      match q.dequeue with
      | (some t, q2) => flushFuel fuel q2 (mainTasks ++ [t])
      | (none, q2) => flushFuel fuel q2 mainTasks

mutual

/-- One item of a plan's subtask stream: a SubTask or a nested Plan whose
own stream emits its items synchronously on subscription. -/
inductive PlanItem where
  | sub : SubTask → PlanItem
  | nested : PlanItemList → PlanItem

/-- The synchronous emissions of one stream, in order. -/
inductive PlanItemList where
  | nil : PlanItemList
  | cons : PlanItem → PlanItemList → PlanItemList

end

mutual

/-- `executePlan.processItem` (`agent.ts` lines 87-107) on one emitted
item.  A SubTask is resolved, enqueued into the scoped queue and the queue
is flushed to the main task queue; a nested Plan bumps `activeStreams`,
synchronously processes the nested emissions, drops `activeStreams` back,
and both branches end in `checkCompletion`. -/
def processItem (fuel : Nat) (s : PlanRunState) (item : PlanItem) :
    Option PlanRunState :=
  match item with
  | .sub t =>
    let q1 := s.planQueue.enqueue (resolveSubTask s.resultMap t)
    match flushFuel fuel q1 s.mainTasks with
    | none => none
    | some (q2, main2) =>
      some (checkCompletion { s with planQueue := q2, mainTasks := main2 })
  | .nested items =>
    match processItems fuel { s with activeStreams := s.activeStreams + 1 } items with
    | none => none
    | some s2 =>
      some (checkCompletion { s2 with activeStreams := s2.activeStreams - 1 })
termination_by sizeOf item

/-- The synchronous pass a stream subscription makes over its emissions. -/
def processItems (fuel : Nat) (s : PlanRunState) (l : PlanItemList) :
    Option PlanRunState :=
  match l with
  | .nil => some s
  | .cons i rest =>
    match processItem fuel s i with
    | none => none
    | some s2 => processItems fuel s2 rest
termination_by sizeOf l

end

/-- `Agent.executePlan` (`agent.ts` lines 75-118) on a plan whose stream
emits `items` synchronously: subscribe (processing every item), then the
`setTimeout(.., 0)` callback sets `streamEnded` and runs `checkCompletion`.
The returned flag is whether the promise resolved; `none` means the run
never finished (the flush loop ran forever). -/
def executePlanRun (fuel : Nat) (resultMap : List (String × TaskResult))
    (items : PlanItemList) : Option (Bool × PlanRunState) :=
  match processItems fuel { resultMap := resultMap } items with
  | none => none
  | some s1 =>
    let s2 := checkCompletion { s1 with streamEnded := true }
    some (s2.resolved, s2)

/-- An `AgentProxy` (`agent-proxy.ts`) as the Router and Supervisor see it:
its worker id, its `meta.type` capability key and the identity of the
socket.io connection it wraps. -/
structure AgentProxy where
  id : String
  agentType : String
  socket : Nat

/-- The Router's state (`router.ts`): the capability-keyed agent map, the
task queue, the result map, the log of results handed to `resultEmitter`
listeners, and the log of `agent.emit(task)` sends to worker channels
(worker id paired with the task). -/
structure RouterState where
  agents : List (String × AgentProxy) := []
  queue : DependencyTaskQueue := {}
  taskResults : List (String × TaskResult) := []
  emitted : List TaskResult := []
  sent : List (String × SubTask) := []

/-- The synthetic failure TaskResult `processNextTask` builds when no agent
is registered for the task's executor (`router.ts` lines 66-79). -/
def routingFailure (t : SubTask) : TaskResult :=
  { id := t.id,
    outcome := .error (.str ("No agent found for executor: " ++ t.executor)) }

/-- `Router.processNextTask` (`router.ts` lines 60-83): dequeue at most one
ready task; stop when none is ready; with no agent bound for its executor,
store and publish a synthetic failure result; otherwise send the task on
the agent's channel. -/
def processNextTask (s : RouterState) : RouterState :=
  match s.queue.dequeue with
  | (none, q) => { s with queue := q }
  | (some t, q) =>
    match mapFind s.agents t.executor with
    | none =>
      let r := routingFailure t
      { s with queue := q,
               taskResults := mapSet s.taskResults t.id r,
               emitted := s.emitted ++ [r] }
    | some a =>
      { s with queue := q, sent := s.sent ++ [(a.id, t)] }

/-- `Router.enqueueTask` (`router.ts` lines 54-58): push to the queue, then
run one dispatch cycle. -/
def enqueueTask (s : RouterState) (t : SubTask) : RouterState :=
  processNextTask { s with queue := s.queue.enqueue t }

/-- The listener `Router.registerAgent` installs on an agent's channel, on
receiving a TaskResult (`router.ts` lines 19-38): store it, mark the id
completed in the dependency queue, publish it, then run one dispatch
cycle. -/
def handleResult (s : RouterState) (r : TaskResult) : RouterState :=
  processNextTask
    { s with taskResults := mapSet s.taskResults r.id r,
             queue := s.queue.markCompleted r.id,
             emitted := s.emitted ++ [r] }

/-- `Router.registerAgent` (`router.ts` lines 14-39): bind the proxy under
its `meta.type`, replacing any prior binding for that key. -/
def registerAgent (s : RouterState) (a : AgentProxy) : RouterState :=
  { s with agents := mapSet s.agents a.agentType a }

/-- `Router.unregisterAgent` (`router.ts` lines 41-44): drop the binding
for the capability key. -/
def unregisterAgent (s : RouterState) (agentType : String) : RouterState :=
  { s with agents := mapDelete s.agents agentType }

/-- The Supervisor's state (`supervisor.ts`): the worker-id-keyed proxy map
and the Router it registers proxies with. -/
structure SupervisorState where
  proxies : List (String × AgentProxy) := []
  router : RouterState := {}

/-- The Supervisor's `register-worker` handler (`supervisor.ts` lines
22-36): construct an AgentProxy for the connection, store it by worker id,
and register it with the Router under its capability key. -/
def handleRegister (s : SupervisorState) (workerId : String)
    (workerType : String) (socket : Nat) : SupervisorState :=
  let proxy : AgentProxy := ⟨workerId, workerType, socket⟩
  { proxies := mapSet s.proxies workerId proxy,
    router := registerAgent s.router proxy }

/-- The Supervisor's `disconnect` handler (`supervisor.ts` lines 38-50):
scan the proxy map in insertion order for the first proxy wrapping this
socket, delete it and unregister its capability key from the Router. -/
def handleDisconnect (s : SupervisorState) (socket : Nat) : SupervisorState :=
  match s.proxies.find? (fun p => p.snd.socket == socket) with
  | none => s
  | some (workerId, proxy) =>
    { proxies := mapDelete s.proxies workerId,
      router := unregisterAgent s.router proxy.agentType }

/-- A POST /tasks request body (`server.ts`): each field may be absent from
the JSON, and `dependencies` rides along untouched. -/
structure Submission where
  id : Option JsValue := none
  executor : Option JsValue := none
  params : Option JsValue := none
  dependencies : Option (List String) := none

/-- JavaScript truthiness of reading a possibly-absent field: an absent
field reads as `undefined`, which is falsy. -/
def fieldTruthy : Option JsValue → Bool
  | none => false
  | some v => truthy v

/-- The response of POST /tasks. -/
inductive PostResponse where
  | badRequest : String → PostResponse
  | success : String → PostResponse

/-- The string a submission field carries (ids and executors are strings in
every well-typed request; a non-string models as its best-effort read). -/
def jsString : JsValue → String
  | .str s => s
  | _ => ""

/-- The Task the boundary hands to `router.enqueueTask`: the request body
itself. -/
def submissionTask (sub : Submission) : SubTask :=
  { id := jsString (sub.id.getD .undefined),
    executor := jsString (sub.executor.getD .undefined),
    params := .value (sub.params.getD .undefined),
    dependencies := sub.dependencies }

/-- The POST /tasks handler (`server.ts` lines 34-45):
`if (!task.id || !task.executor || !task.params)` answer 400 without
touching the queue, else enqueue and answer success. -/
def postTasks (s : RouterState) (sub : Submission) :
    PostResponse × RouterState :=
  if !fieldTruthy sub.id || !fieldTruthy sub.executor || !fieldTruthy sub.params then
    (.badRequest "Invalid task format", s)
  else
    let t := submissionTask sub
    (.success t.id, enqueueTask s t)

/-- `Agent.isPlan` (`agent.ts` lines 71-73):
`typeof data === 'object' && 'subtasks' in data`. -/
def isPlanJs (v : JsValue) : Bool :=
  isObjectJs v && hasKey "subtasks" v

/-- `Agent.isSubTask` (`agent.ts` lines 142-144): `'executor' in item`. -/
def isSubTaskJs (v : JsValue) : Bool :=
  hasKey "executor" v

/-- Which branch of `Agent.processTask` ran. -/
inductive ProcessBranch where
  | planExec : ProcessBranch
  | plain : ProcessBranch
  | caught : ProcessBranch
deriving DecidableEq

/-- `Agent.processTask` (`agent.ts` lines 36-67) given the settled outcome
of `this.executeTask(task.params)`: a rejection is caught into a failure
result; a response that looks like a Plan is driven as one and reported as
the synthetic success `'Plan executed'`; any other response is returned as
result data. -/
def processTaskOutcome (response : Except JsValue JsValue) (taskId : String) :
    ProcessBranch × TaskResult :=
  match response with
  | .error e => (.caught, { id := taskId, outcome := .error e })
  | .ok v =>
    if isPlanJs v then
      (.planExec, { id := taskId, outcome := .data (.str "Plan executed") })
    else
      (.plain, { id := taskId, outcome := .data v })

/-! Concrete instances used by the witnesses and counterexamples. -/

/-- Subtask X of the P7 scenario: no dependencies. -/
def pX : SubTask := { id := "X", executor := "work", params := .value (.str "x") }

/-- Subtask Y of the P7 scenario: depends on X. -/
def pY : SubTask :=
  { id := "Y", executor := "work", params := .value (.str "y"),
    dependencies := some ["X"] }

/-- The P7 plan stream: synchronously emits X then Y, then ends. -/
def planXY : PlanItemList := .cons (.sub pX) (.cons (.sub pY) .nil)

/-- A dependency-free subtask a plan emits. -/
def c3task : SubTask := { id := "X", executor := "work", params := .value (.str "hi") }

/-- The state `processItem` reaches from the empty plan-run state on
`c3task` with enough fuel. -/
def c3out : PlanRunState :=
  { planQueue := { tasks := [], completed := [], processing := ["X"] },
    mainTasks := [c3task] }

/-- A task submitted while no agent is registered for `shell`. -/
def c4task : SubTask :=
  { id := "t1", executor := "shell",
    params := .value (.obj [("command", .str "echo hi")]) }

/-- A router with `c4task` pending and no agent registered. -/
def noAgentRouter : RouterState := { queue := { tasks := [c4task] } }

/-- Two workers register under the capability key `shell`, then the first
one's socket disconnects. -/
def c7afterRegisters : SupervisorState :=
  handleRegister (handleRegister {} "w1" "shell" 1) "w2" "shell" 2

/-- The supervisor state after socket 1 disconnects. -/
def c7afterDisconnect : SupervisorState := handleDisconnect c7afterRegisters 1

/-- A submission whose three fields are all present but whose id is the
empty string (falsy in JavaScript). -/
def c8sub : Submission :=
  { id := some (.str ""), executor := some (.str "shell"),
    params := some (.obj [("command", .str "echo hi")]) }

/-- A dependency-free task sitting alone in a queue. -/
def c9t : SubTask := { id := "t1", executor := "work", params := .value .undefined }

/-- The queue holding only `c9t`. -/
def c9q : DependencyTaskQueue := { tasks := [c9t] }

/-- The queue after dequeuing `c9t`: empty but with `t1` in flight. -/
def c9q2 : DependencyTaskQueue :=
  { tasks := [], completed := [], processing := ["t1"] }

/-! Helper lemmas about the embedded operations. -/

theorem extractFirst_eq_none {p : α → Bool} {l : List α} :
    extractFirst p l = none ↔ ∀ x ∈ l, p x = false := by
  induction l with
  | nil => simp [extractFirst]
  | cons x xs ih =>
    by_cases hp : p x = true
    · simp [extractFirst, hp]
    · rw [extractFirst, if_neg hp]
      cases hx : extractFirst p xs with
      | none =>
        simp only [List.mem_cons]
        constructor
        · intro _ y hy
          rcases hy with rfl | hy
          · exact Bool.eq_false_iff.mpr hp
          · exact ih.mp hx y hy
        · intro _
          trivial
      | some pr =>
        simp only [List.mem_cons]
        constructor
        · intro h
          cases h
        · intro hall
          have hnone : extractFirst p xs = none :=
            ih.mpr (fun z hz => hall z (Or.inr hz))
          rw [hnone] at hx
          cases hx

theorem extractFirst_eq_some {p : α → Bool} :
    ∀ {l : List α} {y : α} {rest : List α},
      extractFirst p l = some (y, rest) →
      p y = true ∧ ∃ pre post, l = pre ++ y :: post ∧
        (∀ u ∈ pre, p u = false) ∧ rest = pre ++ post := by
  intro l
  induction l with
  | nil =>
    intro y rest h
    cases h
  | cons x xs ih =>
    intro y rest h
    by_cases hp : p x = true
    · rw [extractFirst, if_pos hp] at h
      obtain ⟨rfl, rfl⟩ : x = y ∧ xs = rest := by
        injection h with h1
        exact ⟨congrArg Prod.fst h1, congrArg Prod.snd h1⟩
      refine ⟨hp, [], xs, rfl, ?_, rfl⟩
      intro u hu
      cases hu
    · rw [extractFirst, if_neg hp] at h
      cases hx : extractFirst p xs with
      | none =>
        rw [hx] at h
        cases h
      | some pr =>
        obtain ⟨y2, ys⟩ := pr
        rw [hx] at h
        obtain ⟨rfl, rfl⟩ : y2 = y ∧ x :: ys = rest := by
          injection h with h1
          exact ⟨congrArg Prod.fst h1, congrArg Prod.snd h1⟩
        obtain ⟨hy, pre, post, hl, hpre, hrest⟩ := ih hx
        refine ⟨hy, x :: pre, post, by rw [hl]; rfl, ?_, by rw [hrest]; rfl⟩
        intro u hu
        rcases List.mem_cons.mp hu with rfl | hu
        · exact Bool.eq_false_iff.mpr hp
        · exact hpre u hu

theorem strInsert_contains_self (l : List String) (s : String) :
    (strInsert l s).contains s = true := by
  unfold strInsert
  by_cases h : l.contains s = true
  · rw [if_pos h]
    exact h
  · rw [if_neg h]
    simp [List.contains_cons]

theorem dequeue_completed (q : DependencyTaskQueue) :
    (q.dequeue).snd.completed = q.completed := by
  unfold DependencyTaskQueue.dequeue
  cases hx : extractFirst (depsSatisfied q.completed) q.tasks with
  | none => rfl
  | some pr => rfl

theorem processNextTask_queue (s : RouterState) :
    (processNextTask s).queue = (s.queue.dequeue).snd := by
  unfold processNextTask
  split
  next q heq => rw [heq]
  next t q heq =>
    split
    next => rw [heq]
    next => rw [heq]

theorem processNextTask_completed (s : RouterState) :
    (processNextTask s).queue.completed = s.queue.completed := by
  rw [processNextTask_queue]
  exact dequeue_completed s.queue

theorem mapFind_mapDelete_self (m : List (String × α)) (k : String) :
    mapFind (mapDelete m k) k = none := by
  unfold mapFind mapDelete
  rw [Option.map_eq_none']
  rw [List.find?_eq_none]
  intro p hp
  have hk : p.fst ≠ k := by simpa using (List.mem_filter.mp hp).2
  simp [hk]

theorem checkCompletion_frame (s : PlanRunState) :
    (checkCompletion s).planQueue = s.planQueue ∧
    (checkCompletion s).mainTasks = s.mainTasks ∧
    (checkCompletion s).resultMap = s.resultMap := by
  unfold checkCompletion
  by_cases h : (s.streamEnded && s.activeStreams == 0 && s.planQueue.isEmpty) = true
  · rw [if_pos h]
    exact ⟨rfl, rfl, rfl⟩
  · rw [if_neg h]
    exact ⟨rfl, rfl, rfl⟩

theorem flushFuel_stuck :
    ∀ (fuel : Nat) (q : DependencyTaskQueue) (main : List SubTask),
      (∀ t ∈ q.tasks, depsSatisfied q.completed t = false) → q.tasks ≠ [] →
      flushFuel fuel q main = none := by
  intro fuel
  induction fuel with
  | zero =>
    intro q main hall hne
    rw [flushFuel, if_neg]
    simp [DependencyTaskQueue.isEmpty, hne]
  | succ n ih =>
    intro q main hall hne
    rw [flushFuel, if_neg]
    · have hdq : q.dequeue = (none, q) := by
        unfold DependencyTaskQueue.dequeue
        rw [extractFirst_eq_none.mpr hall]
      rw [hdq]
      exact ih q main hall hne
    · simp [DependencyTaskQueue.isEmpty, hne]

theorem flushFuel_some :
    ∀ (fuel : Nat) (q : DependencyTaskQueue) (main : List SubTask)
      (q2 : DependencyTaskQueue) (main2 : List SubTask),
      flushFuel fuel q main = some (q2, main2) →
      q2.tasks = [] ∧ q2.completed = q.completed ∧
      main2.Perm (main ++ q.tasks) := by
  intro fuel
  induction fuel with
  | zero =>
    intro q main q2 main2 h
    by_cases he : q.isEmpty = true
    · rw [flushFuel, if_pos he] at h
      obtain ⟨rfl, rfl⟩ : q = q2 ∧ main = main2 := by
        injection h with h1
        exact ⟨congrArg Prod.fst h1, congrArg Prod.snd h1⟩
      have ht : q.tasks = [] := by
        simpa [DependencyTaskQueue.isEmpty] using he
      exact ⟨ht, rfl, by simp [ht]⟩
    · rw [flushFuel, if_neg he] at h
      cases h
  | succ n ih =>
    intro q main q2 main2 h
    by_cases he : q.isEmpty = true
    · rw [flushFuel, if_pos he] at h
      obtain ⟨rfl, rfl⟩ : q = q2 ∧ main = main2 := by
        injection h with h1
        exact ⟨congrArg Prod.fst h1, congrArg Prod.snd h1⟩
      have ht : q.tasks = [] := by
        simpa [DependencyTaskQueue.isEmpty] using he
      exact ⟨ht, rfl, by simp [ht]⟩
    · rw [flushFuel, if_neg he] at h
      cases hx : extractFirst (depsSatisfied q.completed) q.tasks with
      | none =>
        have hdq : q.dequeue = (none, q) := by
          unfold DependencyTaskQueue.dequeue
          rw [hx]
        rw [hdq] at h
        exact ih q main q2 main2 h
      | some pr =>
        obtain ⟨t, rest⟩ := pr
        have hdq : q.dequeue =
            (some t, { q with tasks := rest,
                              processing := strInsert q.processing t.id }) := by
          unfold DependencyTaskQueue.dequeue
          rw [hx]
        rw [hdq] at h
        obtain ⟨ht2, hc2, hperm⟩ := ih _ _ _ _ h
        obtain ⟨-, pre, post, hl, -, hrest⟩ := extractFirst_eq_some hx
        refine ⟨ht2, hc2, ?_⟩
        have h1 : main2.Perm ((main ++ [t]) ++ (pre ++ post)) := by
          simpa [hrest] using hperm
        have hmid : (t :: (pre ++ post)).Perm (pre ++ t :: post) :=
          List.perm_middle.symm
        have h2 : ((main ++ [t]) ++ (pre ++ post)).Perm (main ++ q.tasks) := by
          rw [hl, List.append_assoc]
          exact List.Perm.append_left main hmid
        exact h1.trans h2

theorem find?_map_replace (k : String) (v : α) :
    ∀ (m : List (String × α)), m.any (fun p => p.fst == k) = true →
      (m.map (fun p => if p.fst == k then (k, v) else p)).find?
        (fun p => p.fst == k) = some (k, v) := by
  intro m
  induction m with
  | nil => intro h; cases h
  | cons p ps ih =>
    intro h
    by_cases hp : (p.fst == k) = true
    · simp only [List.map_cons, if_pos hp]
      rw [List.find?_cons_of_pos _ (by simp)]
    · have hp2 : (p.fst == k) = false := Bool.eq_false_iff.mpr hp
      have h2 : ps.any (fun q => q.fst == k) = true := by
        rw [List.any_cons, hp2, Bool.false_or] at h
        exact h
      simp only [List.map_cons, if_neg hp]
      rw [List.find?_cons_of_neg _ (by simp [hp2])]
      exact ih h2

theorem find?_append_new (k : String) (v : α) :
    ∀ (m : List (String × α)), m.any (fun p => p.fst == k) = false →
      (m ++ [(k, v)]).find? (fun p => p.fst == k) = some (k, v) := by
  intro m
  induction m with
  | nil => simp
  | cons p ps ih =>
    intro h
    rw [List.any_cons] at h
    cases hp : (p.fst == k) with
    | true => rw [hp] at h; simp at h
    | false =>
      rw [hp, Bool.false_or] at h
      rw [List.cons_append, List.find?_cons_of_neg _ (by simp [hp])]
      exact ih h

theorem mapFind_mapSet_self (m : List (String × α)) (k : String) (v : α) :
    mapFind (mapSet m k v) k = some v := by
  unfold mapFind mapSet
  by_cases h : m.any (fun p => p.fst == k) = true
  · rw [if_pos h, find?_map_replace k v m h]
    rfl
  · rw [if_neg h, find?_append_new k v m (Bool.eq_false_iff.mpr h)]
    rfl

theorem flushFuel_empty (f : Nat) (q : DependencyTaskQueue)
    (main : List SubTask) (h : q.isEmpty = true) :
    flushFuel f q main = some (q, main) := by
  cases f with
  | zero => rw [flushFuel, if_pos h]
  | succ n => rw [flushFuel, if_pos h]

theorem processNextTask_no_agent (s : RouterState) (t : SubTask)
    (q : DependencyTaskQueue) (hdq : s.queue.dequeue = (some t, q))
    (hag : mapFind s.agents t.executor = none) :
    processNextTask s =
      { s with queue := q,
               taskResults := mapSet s.taskResults t.id (routingFailure t),
               emitted := s.emitted ++ [routingFailure t] } := by
  unfold processNextTask
  split
  next q2 heq =>
    rw [hdq] at heq
    exact absurd (congrArg Prod.fst heq) (by simp)
  next t2 q2 heq =>
    rw [hdq] at heq
    obtain ⟨rfl, rfl⟩ : t = t2 ∧ q = q2 := by
      have h1 := congrArg Prod.fst heq
      have h2 := congrArg Prod.snd heq
      simp at h1
      exact ⟨h1, h2⟩
    split
    next => rfl
    next a heq2 => rw [hag] at heq2; cases heq2

/-! The claims. -/

/-- C1: `DependencyTaskQueue.dequeue` returns a task only if every id in
its dependency list is in the completed set (an absent or empty list is
immediately ready), it returns the earliest currently-satisfied task in
insertion order (so an unsatisfied task at the front does not block a
satisfied one behind it), and it returns nothing exactly when no queued
task qualifies. -/
theorem dequeue_selects_first_satisfied (q : DependencyTaskQueue) :
    (∀ t q2, q.dequeue = (some t, q2) →
      (∀ deps, t.dependencies = some deps →
        ∀ d ∈ deps, q.completed.contains d = true) ∧
      ∃ pre post, q.tasks = pre ++ t :: post ∧
        (∀ u ∈ pre, depsSatisfied q.completed u = false) ∧
        q2.tasks = pre ++ post) ∧
    ((q.dequeue).fst = none ↔
      ∀ u ∈ q.tasks, depsSatisfied q.completed u = false) := by
  constructor
  · intro t q2 h
    unfold DependencyTaskQueue.dequeue at h
    cases hx : extractFirst (depsSatisfied q.completed) q.tasks with
    | none =>
      rw [hx] at h
      exact absurd (congrArg Prod.fst h) (by simp)
    | some pr =>
      obtain ⟨t0, rest⟩ := pr
      rw [hx] at h
      obtain ⟨rfl, hq2⟩ : t0 = t ∧
          ({ q with tasks := rest,
                    processing := strInsert q.processing t0.id } = q2) := by
        refine ⟨?_, congrArg Prod.snd h⟩
        have := congrArg Prod.fst h
        simpa using this
      obtain ⟨hsat, pre, post, hdecomp, hpre, hrest⟩ := extractFirst_eq_some hx
      refine ⟨?_, pre, post, hdecomp, hpre, ?_⟩
      · intro deps hdeps d hd
        unfold depsSatisfied at hsat
        rw [hdeps] at hsat
        exact List.all_eq_true.mp hsat d hd
      · rw [← hq2, ← hrest]
  · constructor
    · intro h
      unfold DependencyTaskQueue.dequeue at h
      cases hx : extractFirst (depsSatisfied q.completed) q.tasks with
      | none => exact extractFirst_eq_none.mp hx
      | some pr =>
        obtain ⟨t0, rest⟩ := pr
        rw [hx] at h
        simp at h
    · intro hall
      unfold DependencyTaskQueue.dequeue
      rw [extractFirst_eq_none.mpr hall]

/-- C9: `size` and `isEmpty` count only tasks still pending in the queue:
dequeuing removes the task from the count and moves its id to the
in-flight `processing` set without completing it, so the queue can report
empty while a dispatched task has not yet produced any result. -/
theorem size_excludes_inflight (q : DependencyTaskQueue) (t : SubTask)
    (q2 : DependencyTaskQueue) (h : q.dequeue = (some t, q2)) :
    q2.size + 1 = q.size ∧
    q2.isProcessing t.id = true ∧
    q2.completed = q.completed ∧
    (q.size = 1 → q2.isEmpty = true) := by
  unfold DependencyTaskQueue.dequeue at h
  cases hx : extractFirst (depsSatisfied q.completed) q.tasks with
  | none =>
    rw [hx] at h
    exact absurd (congrArg Prod.fst h) (by simp)
  | some pr =>
    obtain ⟨t0, rest⟩ := pr
    rw [hx] at h
    obtain ⟨rfl, hq2⟩ : t = t0 ∧
        ({ q with tasks := rest,
                  processing := strInsert q.processing t0.id } = q2) := by
      refine ⟨?_, congrArg Prod.snd h⟩
      have h1 := congrArg Prod.fst h
      simp at h1
      exact h1.symm
    obtain ⟨-, pre, post, hdecomp, -, hrest⟩ := extractFirst_eq_some hx
    rw [← hq2]
    refine ⟨?_, ?_, rfl, ?_⟩
    · show rest.length + 1 = q.tasks.length
      rw [hrest, hdecomp]
      simp only [List.length_append, List.length_cons]
      omega
    · simpa [DependencyTaskQueue.isProcessing] using
        strInsert_contains_self q.processing t.id
    · intro hone
      have hlen : pre.length + (t :: post).length = 1 := by
        rw [← List.length_append, ← hdecomp]
        exact hone
      have hlen2 : pre.length + (post.length + 1) = 1 := by
        simpa using hlen
      have hpre0 : pre = [] := List.eq_nil_of_length_eq_zero (by omega)
      have hpost0 : post = [] := List.eq_nil_of_length_eq_zero (by omega)
      simp [DependencyTaskQueue.isEmpty, hrest, hpre0, hpost0]

/-- C2 (code behaviour at the P7 scenario): for a plan that synchronously
emits X (no dependencies) and then Y (depending on X), `executePlan` never
finishes at all, for every fuel bound on its drain loop: when Y is emitted,
`flushQueueToTaskQueue` spins forever on the scoped queue, whose completed
set is never updated, so the promise never resolves and neither X nor Y
ever produces a TaskResult. -/
theorem plan_with_dependency_never_resolves (fuel : Nat)
    (resultMap : List (String × TaskResult)) :
    executePlanRun fuel resultMap planXY = none := by
  have hstuck : ∀ (f : Nat) (main : List SubTask),
      flushFuel f
        { tasks := [{ id := "Y", executor := "work",
                      params := .value (.str "y"),
                      dependencies := some ["X"], span := none }],
          completed := [], processing := ["X"] } main = none := by
    intro f main
    apply flushFuel_stuck
    · intro t ht
      simp at ht
      subst ht
      rfl
    · simp
  cases fuel with
  | zero =>
    have hX0 : processItem 0 { resultMap := resultMap } (.sub pX) = none := by
      simp [processItem, pX, resolveSubTask, resolveParams,
        DependencyTaskQueue.enqueue, flushFuel, DependencyTaskQueue.isEmpty]
    have h1 : processItems 0 { resultMap := resultMap } planXY = none := by
      rw [planXY, processItems.eq_def]
      simp only []
      rw [hX0]
    rw [executePlanRun, h1]
  | succ n =>
    have hX : processItem (n + 1) { resultMap := resultMap } (.sub pX) =
        some { planQueue := { tasks := [], completed := [], processing := ["X"] },
               mainTasks := [{ id := "X", executor := "work",
                               params := .value (.str "x"),
                               dependencies := none, span := none }],
               resultMap := resultMap } := by
      simp [processItem, pX, resolveSubTask, resolveParams,
        DependencyTaskQueue.enqueue, flushFuel, DependencyTaskQueue.isEmpty,
        DependencyTaskQueue.dequeue, extractFirst, depsSatisfied, strInsert,
        checkCompletion, flushFuel_empty]
    have hY : processItem (n + 1)
        { planQueue := { tasks := [], completed := [], processing := ["X"] },
          mainTasks := [{ id := "X", executor := "work",
                          params := .value (.str "x"),
                          dependencies := none, span := none }],
          resultMap := resultMap } (.sub pY) = none := by
      simp [processItem, pY, resolveSubTask, resolveParams,
        DependencyTaskQueue.enqueue, hstuck]
    have h1 : processItems (n + 1) { resultMap := resultMap } planXY = none := by
      rw [planXY, processItems.eq_def]
      simp only []
      rw [hX]
      simp only [Option.some.injEq]
      rw [processItems.eq_def]
      simp only []
      rw [hY]
    rw [executePlanRun, h1]

/-- C3 counterexample: a dependency-free subtask X processed by
`executePlan.processItem` from a fresh plan-run state is drained into the
main task queue (length 1 afterwards), yet no TaskResult for `"X"` appears
in the shared result map — the drain records nothing, contradicting the
claim that each drained task's TaskResult is recorded keyed by its id. -/
theorem drain_records_no_result_at_X :
    (processItem 1 {} (.sub c3task)).map
        (fun s => ((mapFind s.resultMap "X").isSome, s.mainTasks.length)) =
      some (false, 1) := by
  simp [processItem, c3task, resolveSubTask, resolveParams,
    DependencyTaskQueue.enqueue, flushFuel, DependencyTaskQueue.isEmpty,
    DependencyTaskQueue.dequeue, extractFirst, depsSatisfied, strInsert,
    checkCompletion, mapFind]

/-- C3 (amended): for every SubTask a plan stream emits, when
`processItem`'s drain loop terminates it has enqueued the resolved subtask
into the scoped queue and transferred it and every other currently-ready
task into the Agent's main task queue (the queue top-level tasks enter),
leaving the scoped queue empty, its completed set untouched and the shared
result map unchanged — the drain itself records no TaskResult. -/
theorem drain_transfers_to_main_queue (fuel : Nat) (s : PlanRunState)
    (t : SubTask) (s2 : PlanRunState)
    (h : processItem fuel s (.sub t) = some s2) :
    s2.resultMap = s.resultMap ∧
    s2.planQueue.tasks = [] ∧
    s2.planQueue.completed = s.planQueue.completed ∧
    s2.mainTasks.Perm
      (s.mainTasks ++ (s.planQueue.tasks ++ [resolveSubTask s.resultMap t])) := by
  rw [processItem.eq_def] at h
  simp only [] at h
  cases hf : flushFuel fuel (s.planQueue.enqueue (resolveSubTask s.resultMap t))
      s.mainTasks with
  | none => rw [hf] at h; cases h
  | some pr =>
    obtain ⟨q2, main2⟩ := pr
    rw [hf] at h
    have hs2 : checkCompletion
        { s with planQueue := q2, mainTasks := main2 } = s2 := by
      injection h
    obtain ⟨hq, hc, hperm⟩ := flushFuel_some fuel _ _ _ _ hf
    obtain ⟨hf1, hf2, hf3⟩ := checkCompletion_frame
      { s with planQueue := q2, mainTasks := main2 }
    rw [hs2] at hf1 hf2 hf3
    refine ⟨hf3, ?_, ?_, ?_⟩
    · rw [hf1]
      exact hq
    · rw [hf1]
      exact hc
    · rw [hf2]
      simpa [DependencyTaskQueue.enqueue] using hperm

/-- C3 witness: the amended drain property evaluated on `c3task` from the
fresh plan-run state with fuel 2. -/
theorem drain_transfers_witness :
    c3out.resultMap = ({} : PlanRunState).resultMap ∧
    c3out.planQueue.tasks = [] ∧
    c3out.planQueue.completed = ({} : PlanRunState).planQueue.completed ∧
    c3out.mainTasks.Perm
      (({} : PlanRunState).mainTasks ++
        (({} : PlanRunState).planQueue.tasks ++
          [resolveSubTask ({} : PlanRunState).resultMap c3task])) :=
  drain_transfers_to_main_queue 2 {} c3task c3out (by
    simp [processItem, c3task, c3out, resolveSubTask, resolveParams,
      DependencyTaskQueue.enqueue, flushFuel, DependencyTaskQueue.isEmpty,
      DependencyTaskQueue.dequeue, extractFirst, depsSatisfied, strInsert,
      checkCompletion])

/-- C4 counterexample: dispatching `c4task` with no agent bound records a
TaskResult for `"t1"` in the Router's result map, yet `"t1"` is not added
to the queue's completed set — the synthetic routing-failure path does not
unblock dependents, contradicting the claim. -/
theorem routing_failure_not_marked_completed :
    (mapFind (enqueueTask {} c4task).taskResults "t1").isSome = true ∧
    (enqueueTask {} c4task).queue.completed.contains "t1" = false :=
  ⟨rfl, rfl⟩

/-- C4 (amended): a task id is added to the ReadyQueue's completed set
exactly when a TaskResult arrives on a bound endpoint's channel — success
and failure alike — while the synthetic routing-failure result of a
dispatch cycle is stored and published without adding its id to the
completed set, so dependents of a routing-failed task are not unblocked. -/
theorem completion_marking_channel_only :
    (∀ (s : RouterState) (r : TaskResult),
      (handleResult s r).queue.completed.contains r.id = true) ∧
    (∀ (s : RouterState) (t : SubTask) (q : DependencyTaskQueue),
      s.queue.dequeue = (some t, q) → mapFind s.agents t.executor = none →
      (processNextTask s).queue.completed = s.queue.completed ∧
      mapFind (processNextTask s).taskResults t.id = some (routingFailure t)) := by
  constructor
  · intro s r
    unfold handleResult
    rw [processNextTask_completed]
    simpa [DependencyTaskQueue.markCompleted] using
      strInsert_contains_self s.queue.completed r.id
  · intro s t q hdq hag
    rw [processNextTask_no_agent s t q hdq hag]
    constructor
    · have hq := dequeue_completed s.queue
      rw [hdq] at hq
      exact hq
    · exact mapFind_mapSet_self s.taskResults t.id (routingFailure t)

/-- C5: a dispatch cycle that dequeues a task whose capability key has no
bound endpoint stores the synthetic failure TaskResult for the task's id,
publishes it to result listeners, leaves the worker-channel send log
unchanged (no worker is contacted) and does not re-enqueue or retry the
task; the embedded handler is total, so no exception escapes. -/
theorem routing_failure_without_worker_contact (s : RouterState)
    (t : SubTask) (q : DependencyTaskQueue)
    (hdq : s.queue.dequeue = (some t, q))
    (hag : mapFind s.agents t.executor = none) :
    processNextTask s =
      { s with queue := q,
               taskResults := mapSet s.taskResults t.id (routingFailure t),
               emitted := s.emitted ++ [routingFailure t] } ∧
    (processNextTask s).sent = s.sent := by
  have h := processNextTask_no_agent s t q hdq hag
  exact ⟨h, by rw [h]⟩

/-- C5 witness: the routing-failure dispatch evaluated on a router holding
only `c4task` and no agents. -/
theorem routing_failure_witness :
    (processNextTask noAgentRouter =
      { noAgentRouter with
        queue := { tasks := [], completed := [], processing := ["t1"] },
        taskResults := mapSet noAgentRouter.taskResults "t1"
          (routingFailure c4task),
        emitted := noAgentRouter.emitted ++ [routingFailure c4task] }) ∧
    (processNextTask noAgentRouter).sent = noAgentRouter.sent :=
  routing_failure_without_worker_contact noAgentRouter c4task
    { tasks := [], completed := [], processing := ["t1"] } rfl rfl

/-- C6: a SubTask whose params field is a resolver function has the
resolver invoked on exactly the recorded results of its declared
dependency ids — one argument per listed id, in listed order — and a
SubTask whose params is already a plain value is used unchanged. -/
theorem resolver_receives_dependency_results
    (results : List (String × TaskResult)) (t : SubTask) :
    (∀ f, t.params = .resolver f →
      resolveParams results t =
        f ((t.dependencies.getD []).map (depResultValue results)) ∧
      ((t.dependencies.getD []).map (depResultValue results)).length =
        (t.dependencies.getD []).length ∧
      ∀ i : Nat,
        ((t.dependencies.getD []).map (depResultValue results)).get? i =
          ((t.dependencies.getD []).get? i).map (depResultValue results)) ∧
    (∀ v, t.params = .value v → resolveParams results t = v) := by
  constructor
  · intro f hf
    refine ⟨?_, by simp, fun i => by simp⟩
    unfold resolveParams
    rw [hf]
  · intro v hv
    unfold resolveParams
    rw [hv]

/-- C7: when a socket for which a proxy is stored disconnects, the
Supervisor unregisters that proxy's capability key from the Router, so no
endpoint remains bound for it and any task for that capability dispatched
afterwards takes the no-endpoint failure path — including when a second
worker had registered under the same capability key beforehand, whose
binding is removed as well. -/
theorem disconnect_unregisters_capability (s : SupervisorState) (sock : Nat)
    (workerId : String) (proxy : AgentProxy)
    (hfind : s.proxies.find? (fun p => p.snd.socket == sock) =
      some (workerId, proxy)) :
    mapFind (handleDisconnect s sock).router.agents proxy.agentType = none ∧
    (∀ (t : SubTask) (q : DependencyTaskQueue),
      (handleDisconnect s sock).router.queue.dequeue = (some t, q) →
      t.executor = proxy.agentType →
      processNextTask (handleDisconnect s sock).router =
        { (handleDisconnect s sock).router with
          queue := q,
          taskResults := mapSet (handleDisconnect s sock).router.taskResults
            t.id (routingFailure t),
          emitted := (handleDisconnect s sock).router.emitted ++
            [routingFailure t] }) := by
  have hd : handleDisconnect s sock =
      { proxies := mapDelete s.proxies workerId,
        router := unregisterAgent s.router proxy.agentType } := by
    unfold handleDisconnect
    rw [hfind]
  have hnone :
      mapFind (handleDisconnect s sock).router.agents proxy.agentType = none := by
    rw [hd]
    unfold unregisterAgent
    exact mapFind_mapDelete_self s.router.agents proxy.agentType
  refine ⟨hnone, ?_⟩
  intro t q hdq hexec
  apply processNextTask_no_agent _ t q hdq
  rw [hexec]
  exact hnone

/-- C7 witness: worker w1 (socket 1) and then worker w2 (socket 2) both
register under `shell`; after socket 1 disconnects, no endpoint is bound
for `shell` and any shell task dispatched then takes the failure path. -/
theorem disconnect_unregisters_witness :
    mapFind (handleDisconnect c7afterRegisters 1).router.agents "shell" =
      none ∧
    (∀ (t : SubTask) (q : DependencyTaskQueue),
      (handleDisconnect c7afterRegisters 1).router.queue.dequeue =
        (some t, q) →
      t.executor = "shell" →
      processNextTask (handleDisconnect c7afterRegisters 1).router =
        { (handleDisconnect c7afterRegisters 1).router with
          queue := q,
          taskResults := mapSet
            (handleDisconnect c7afterRegisters 1).router.taskResults
            t.id (routingFailure t),
          emitted := (handleDisconnect c7afterRegisters 1).router.emitted ++
            [routingFailure t] }) :=
  disconnect_unregisters_capability c7afterRegisters 1 "w1"
    { id := "w1", agentType := "shell", socket := 1 } rfl

/-- C8 counterexample: a submission whose three fields are all present but
whose id is the empty string is rejected with the 400 error and the router
is left untouched, contradicting the claim that every submission with all
three fields present is enqueued. -/
theorem present_but_empty_id_rejected :
    c8sub.id.isSome = true ∧ c8sub.executor.isSome = true ∧
    c8sub.params.isSome = true ∧
    postTasks {} c8sub = (.badRequest "Invalid task format", {}) :=
  ⟨rfl, rfl, rfl, rfl⟩

/-- C8 (amended): the POST /tasks boundary rejects synchronously — without
touching the queue — exactly when any of id, executor, params is missing
or JavaScript-falsy (absent field, empty string, 0, false); a missing
field is always rejected, and when all three fields are truthy the task is
handed to `enqueueTask`. -/
theorem submission_boundary_truthiness (s : RouterState) (sub : Submission) :
    (sub.id = none ∨ sub.executor = none ∨ sub.params = none →
      postTasks s sub = (.badRequest "Invalid task format", s)) ∧
    ((fieldTruthy sub.id && fieldTruthy sub.executor &&
        fieldTruthy sub.params) = false →
      postTasks s sub = (.badRequest "Invalid task format", s)) ∧
    ((fieldTruthy sub.id && fieldTruthy sub.executor &&
        fieldTruthy sub.params) = true →
      postTasks s sub =
        (.success (submissionTask sub).id,
          enqueueTask s (submissionTask sub))) := by
  refine ⟨?_, ?_, ?_⟩
  · intro h
    rcases h with h | h | h <;> simp [postTasks, fieldTruthy, h]
  · intro h
    cases hA : fieldTruthy sub.id <;> cases hB : fieldTruthy sub.executor <;>
      cases hC : fieldTruthy sub.params <;> simp_all [postTasks]
  · intro h
    cases hA : fieldTruthy sub.id <;> cases hB : fieldTruthy sub.executor <;>
      cases hC : fieldTruthy sub.params <;> simp_all [postTasks]

/-- C8 witness: the boundary evaluated on `c8sub` (all fields present, id
falsy) through the amended theorem. -/
theorem submission_boundary_witness :
    (c8sub.id = none ∨ c8sub.executor = none ∨ c8sub.params = none →
      postTasks {} c8sub = (.badRequest "Invalid task format", {})) ∧
    ((fieldTruthy c8sub.id && fieldTruthy c8sub.executor &&
        fieldTruthy c8sub.params) = false →
      postTasks {} c8sub = (.badRequest "Invalid task format", {})) ∧
    ((fieldTruthy c8sub.id && fieldTruthy c8sub.executor &&
        fieldTruthy c8sub.params) = true →
      postTasks {} c8sub =
        (.success (submissionTask c8sub).id,
          enqueueTask {} (submissionTask c8sub))) :=
  submission_boundary_truthiness {} c8sub

/-- C9 witness: dequeuing the single ready task from `c9q` leaves an empty
queue whose in-flight set holds the task's id, with nothing completed. -/
theorem size_excludes_inflight_witness :
    c9q2.size + 1 = c9q.size ∧
    c9q2.isProcessing c9t.id = true ∧
    c9q2.completed = c9q.completed ∧
    (c9q.size = 1 → c9q2.isEmpty = true) :=
  size_excludes_inflight c9q c9t c9q2 rfl

/-- C10: `Agent.processTask` takes the plan-execution branch — reporting
the synthetic `'Plan executed'` completion — if and only if the executed
value is an object containing a `subtasks` key; any other resolved value
is returned unchanged as result data; and a stream item counts as a
SubTask (versus a nested Plan) exactly when it contains an `executor`
key, so a plan-shaped record with only `id` and `subtasks` keys is never
classified as a SubTask. -/
theorem structural_type_probing (resp : JsValue) (taskId : String) :
    ((processTaskOutcome (.ok resp) taskId).fst = .planExec ↔
      isObjectJs resp = true ∧ hasKey "subtasks" resp = true) ∧
    ((processTaskOutcome (.ok resp) taskId).fst ≠ .planExec →
      processTaskOutcome (.ok resp) taskId =
        (.plain, { id := taskId, outcome := .data resp })) ∧
    (∀ item : JsValue, isSubTaskJs item = hasKey "executor" item) ∧
    (∀ fields : List (String × JsValue),
      (∀ p ∈ fields, p.fst = "id" ∨ p.fst = "subtasks") →
      isSubTaskJs (.obj fields) = false) := by
  refine ⟨?_, ?_, fun item => rfl, ?_⟩
  · unfold processTaskOutcome
    simp only []
    by_cases h : isPlanJs resp = true
    · rw [if_pos h]
      simp only [true_iff]
      have h2 : (isObjectJs resp && hasKey "subtasks" resp) = true := by
        simpa [isPlanJs] using h
      simp only [Bool.and_eq_true] at h2
      exact ⟨h2.1, h2.2⟩
    · rw [if_neg h]
      constructor
      · intro hc
        cases hc
      · intro ⟨h1, h2⟩
        exact absurd (by simp [isPlanJs, h1, h2]) h
  · unfold processTaskOutcome
    simp only []
    by_cases h : isPlanJs resp = true
    · rw [if_pos h]
      intro hc
      exact absurd rfl hc
    · rw [if_neg h]
      intro _
      rfl
  · intro fields hall
    apply Bool.eq_false_iff.mpr
    intro hany
    have hany2 : fields.any (fun p => p.fst == "executor") = true := by
      simpa [isSubTaskJs, hasKey] using hany
    rcases List.any_eq_true.mp hany2 with ⟨p, hp, hpk⟩
    rcases hall p hp with hid | hsub
    · rw [hid] at hpk
      exact absurd hpk (by decide)
    · rw [hsub] at hpk
      exact absurd hpk (by decide)

end TaskRouter
